import Mathlib

/-!
Verification of the R2R pipeline framework's core subsystems against their
specification: the shared run state (AsyncState), the document workflow store
(PostgresDocumentHandler), and the knowledge-graph candidate ranking utility
(KGSearchSearchPipe.filter_responses).  Each definition is a shallow embedding
of the corresponding Python code in src/py.
-/

namespace R2R

/-! ## Python values and errors

Python runtime values as they occur in the embedded code, together with the
exception classes those code paths can raise. -/

/-- A Python value as stored in the shared pipeline state. -/
inductive PyVal where
  | noneV
  | boolV (b : Bool)
  | intV (n : Int)
  | strV (s : String)
  | listV (xs : List PyVal)
  | dictV (kvs : List (String × PyVal))

/-- Python truthiness of a value (`bool(v)`): None, False, 0, empty string,
empty list and empty dict are falsy. -/
def pyTruthy : PyVal → Bool
  | PyVal.noneV => false
  | PyVal.boolV b => b
  | PyVal.intV n => n != 0
  | PyVal.strV s => s ≠ ""
  | PyVal.listV xs => !xs.isEmpty
  | PyVal.dictV kvs => !kvs.isEmpty

/-- Python truthiness of an `Optional[str]` argument: `None` and the empty
string are falsy. -/
def pyTruthyOptStr : Option String → Bool
  | Option.none => false
  | Option.some s => s ≠ ""

/-- The Python exception classes raised by the embedded code paths.
`valueErrorKeyMissing k` is the AsyncState exception
ValueError with message Key k does not exist in the state, kept as its own
constructor so the missing-key classification is structural. -/
inductive PyErr where
  | valueError (msg : String)
  | valueErrorKeyMissing (key : String)
  | keyError (key : String)
  | typeError
  | attributeError
  | indexError
  | r2rException (status_code : Nat) (msg : String)
deriving DecidableEq, Repr

/-- Whether an exception reports a missing key: a `KeyError` from a dict
lookup, or the state's `ValueError` saying a key does not exist. -/
def PyErr.isNotFoundClass : PyErr → Bool
  | PyErr.keyError _ => true
  | PyErr.valueErrorKeyMissing _ => true
  | _ => false

/-! ## AsyncState (src/py/core/base/pipes/base_pipe.py, lines 16-54)

`AsyncState.data` is a dict from outer key to a dict from inner key to value.
The asyncio lock serialises each operation; each operation is thus embedded as
one pure function on the state data. -/

/-- One outer bucket of the state: a Python dict keyed by inner key. -/
abbrev Bucket := List (String × PyVal)

/-- The `data` dict of an AsyncState, keyed by outer key. -/
abbrev StateData := List (String × Bucket)

/-- Lookup in a Python dict modelled as an association list (keys unique). -/
def lookupKey {β : Type} : List (String × β) → String → Option β
  | [], _ => Option.none
  | (k, v) :: rest, key => if k = key then Option.some v else lookupKey rest key

/-- Python `key in d` membership test. -/
def hasKey {β : Type} (m : List (String × β)) (key : String) : Bool :=
  (lookupKey m key).isSome

/-- Python `del d[key]`. -/
def eraseKey {β : Type} : List (String × β) → String → List (String × β)
  | [], _ => []
  | (k, v) :: rest, key => if k = key then rest else (k, v) :: eraseKey rest key

/-- Replace the value stored at a present key. -/
def setKey {β : Type} : List (String × β) → String → β → List (String × β)
  | [], _, _ => []
  | (k, v) :: rest, key, w =>
      if k = key then (k, w) :: rest else (k, v) :: setKey rest key w

/-- `AsyncState.get(outer_key, inner_key, default=None)` (base_pipe.py 33-42):
raises `ValueError` when the outer key is absent; when the inner key is absent
within the bucket returns `default or {}` (Python or-fallback on truthiness);
otherwise returns the stored value. -/
def AsyncState.get (st : StateData) (outer_key inner_key : String)
    (default : PyVal) : Except PyErr PyVal :=
  match lookupKey st outer_key with
  | Option.none => Except.error (PyErr.valueErrorKeyMissing outer_key)
  | Option.some bucket =>
      match lookupKey bucket inner_key with
      | Option.none =>
          Except.ok (if pyTruthy default then default else PyVal.dictV [])
      | Option.some v => Except.ok v

/-- `AsyncState.delete(outer_key, inner_key=None)` (base_pipe.py 44-54).  When
the outer key is present and the inner key is falsy, the whole bucket is
deleted.  Otherwise `self.data[outer_key]` is subscripted: a `KeyError` when
the outer key is absent; with the bucket in hand, an absent inner key raises
`ValueError`, a present one is deleted.  The pair returns the outcome together
with the state after the call (unchanged when an exception is raised, since no
mutation precedes either raise). -/
def AsyncState.delete (st : StateData) (outer_key : String)
    (inner_key : Option String) : Except PyErr Unit × StateData :=
  if hasKey st outer_key && !pyTruthyOptStr inner_key then
    (Except.ok (), eraseKey st outer_key)
  else
    match lookupKey st outer_key with
    | Option.none => (Except.error (PyErr.keyError outer_key), st)
    | Option.some bucket =>
        match inner_key with
        | Option.none =>
            -- `None not in bucket` holds (string-keyed dict), so ValueError.
            -- Unreachable: with the outer key present a falsy inner key takes
            -- the first branch.
            (Except.error (PyErr.valueErrorKeyMissing "None"), st)
        | Option.some ik =>
            if hasKey bucket ik then
              (Except.ok (), setKey st outer_key (eraseKey bucket ik))
            else
              (Except.error (PyErr.valueErrorKeyMissing ik), st)

/-! ## Document store (src/py/core/providers/database/document.py)

One row of the `document_info` table (schema in `create_tables`, lines 36-54).
UUIDs are opaque identifiers modelled as naturals; TIMESTAMPTZ as integers;
JSONB metadata as an opaque string. -/

/-- A row of the document_info table; also the `db_entry` dict computed by
`DocumentInfo.convert_to_db_entry`, which carries the same columns. -/
structure DocRow where
  document_id : Nat
  collection_ids : List Nat
  user_id : Nat
  doc_type : String
  metadata : String
  title : String
  version : String
  size_in_bytes : Int
  ingestion_status : String
  kg_extraction_status : String
  created_at : Int
  updated_at : Int
  ingestion_attempt_number : Int
deriving DecidableEq, Repr

/-- The attempt-number computation of `upsert_documents_overview` (document.py
91-99): increment the stored number when the stored status is not success and
the incoming status is success, or when the incoming attempt number is
strictly greater; otherwise retain the stored number. -/
def newAttemptNumber (db_status : String) (db_version : Int)
    (entry_status : String) (new_version : Int) : Int :=
  if (db_status ≠ "success" ∧ entry_status = "success") ∨ new_version > db_version
  then db_version + 1
  else db_version

/-- The per-document transaction body of `upsert_documents_overview`
(document.py 69-150): with no existing row, insert the incoming entry as is;
with an existing (row-locked) row, update every mutable column from the entry
and store the computed attempt number (`document_id` and `created_at` are not
in the UPDATE column list and keep their stored values). -/
def upsertDocumentStep (existing : Option DocRow) (entry : DocRow) : DocRow :=
  match existing with
  | Option.none => entry
  | Option.some db =>
      { entry with
        document_id := db.document_id
        created_at := db.created_at
        ingestion_attempt_number :=
          newAttemptNumber db.ingestion_status db.ingestion_attempt_number
            entry.ingestion_status entry.ingestion_attempt_number }

/-- A sequence of upserts applied to an already-stored row for a fixed
document id. -/
def applyUpserts (s : DocRow) (entries : List DocRow) : DocRow :=
  entries.foldl (fun acc e => upsertDocumentStep (Option.some acc) e) s

/-! ### Conflict retry loop (document.py 63-67 and 152-165)

`max_retries = 20`; on a uniqueness or deadlock conflict `retries` is
incremented, the conflict is re-raised when `retries == max_retries`, and
otherwise the loop sleeps `0.1 * (2 ** retries)` seconds before the next
attempt.  The wait is modelled in milliseconds to stay in exact arithmetic.
A document's store behaviour is abstracted by the number of consecutive
conflicting attempts it incurs before an attempt would succeed. -/

/-- `max_retries` (document.py line 64). -/
def max_retries : Nat := 20

/-- The backoff wait `0.1 * (2 ** retries)` seconds (document.py line 164),
expressed in milliseconds. -/
def backoff_wait_ms (retries : Nat) : Nat := 100 * 2 ^ retries

/-- The `while retries < max_retries` loop for one document (document.py
66-165), given that the document's first `conflicts` attempts raise a
uniqueness/serialization conflict and any later attempt succeeds.  `fuel` is
`max_retries - retries`, so `fuel > 0` is the loop guard `retries <
max_retries`.  Returns (attempts made, waits slept in ms, whether the conflict
was re-raised). -/
def retryLoopAux : Nat → Nat → Nat → Nat × List Nat × Bool
  | 0, _, _ => (0, [], false)
  | fuel + 1, conflicts, retries =>
      if retries < conflicts then
        -- this attempt conflicts: retries += 1, then raise or sleep
        if retries + 1 = max_retries then (1, [], true)
        else
          match retryLoopAux fuel conflicts (retries + 1) with
          | (attempts, waits, raised) =>
              (attempts + 1, backoff_wait_ms (retries + 1) :: waits, raised)
      else (1, [], false)

/-- One document's upsert with the retry loop, started at `retries = 0`. -/
def upsertDocRetry (conflicts : Nat) : Nat × List Nat × Bool :=
  retryLoopAux max_retries conflicts 0

/-- The whole of `upsert_documents_overview` (document.py 57-165) at the
batch level: documents are processed in order; a document whose retry budget
is exhausted re-raises its conflict, which propagates out of the `for` loop,
so the remaining documents are not processed.  Each document is paired with
its number of consecutive conflicting attempts.  Returns (ids upserted
successfully, all waits slept in ms, id whose upsert raised, if any). -/
def upsert_documents_overview : List (Nat × Nat) → List Nat × List Nat × Option Nat
  | [] => ([], [], Option.none)
  | (d, conflicts) :: rest =>
      match upsertDocRetry conflicts with
      | (_, waits, true) => ([], waits, Option.some d)
      | (_, waits, false) =>
          match upsert_documents_overview rest with
          | (done, laterWaits, raisedAt) =>
              (d :: done, waits ++ laterWaits, raisedAt)

/-! ### delete_from_documents_overview (document.py 167-181)

The DELETE is constrained to `version = $2` only under Python truthiness of
the `version` argument (`if version:`), so `None` and the empty string alike
delete by document id only. -/

/-- `delete_from_documents_overview(document_id, version=None)`: the table
after the DELETE. -/
def delete_from_documents_overview (table : List DocRow) (document_id : Nat)
    (version : Option String) : List DocRow :=
  if pyTruthyOptStr version then
    table.filter fun r =>
      !(decide (r.document_id = document_id) && decide (r.version = version.getD ""))
  else
    table.filter fun r => !(decide (r.document_id = document_id))

/-! ### get_documents_overview (document.py 352-431)

A `WHERE` condition is added per filter list only when the Python list is
truthy (non-empty); `collection_ids && $n` is array overlap.  The query orders
by `created_at DESC` (ties in an order the database may choose; the embedding
fixes one admissible order with a stable sort), applies `OFFSET`, applies
`LIMIT` only when `limit != -1`, and computes `COUNT(*) OVER()` over the
filtered rows before offset/limit.  The Python code then reads
`results[0]["total_entries"] if results else 0`. -/

/-- The conjunction of the three optional filters (document.py 364-377). -/
def matchesFilters (fdoc fuser fcoll : List Nat) (r : DocRow) : Bool :=
  (fdoc.isEmpty || decide (r.document_id ∈ fdoc))
    && (fuser.isEmpty || decide (r.user_id ∈ fuser))
    && (fcoll.isEmpty || fcoll.any fun c => decide (c ∈ r.collection_ids))

/-- `get_documents_overview(filters, offset, limit)`: returns the page of
rows and the `total_entries` value the code reports. -/
def get_documents_overview (table : List DocRow) (fdoc fuser fcoll : List Nat)
    (offset : Nat) (limit : Int) : List DocRow × Nat :=
  let matching := table.filter (matchesFilters fdoc fuser fcoll)
  let sorted := matching.mergeSort fun a b => b.created_at ≤ a.created_at
  let page :=
    if limit = -1 then sorted.drop offset
    else (sorted.drop offset).take limit.toNat
  (page, if page.isEmpty then 0 else matching.length)

/-! ## Workflow status (document.py 183-350)

`get_workflow_status` builds `list(map(result_of_fetch, out_model))`: the
awaited fetch result (a list of records) is passed as the *function* argument
of `map` and the status enumeration as the iterable.  Forcing the map applies
the record list to each enum member, and a Python list is not callable. -/

/-- A Python object as handled by `get_workflow_status`: a fetched record
(one row, as a mapping from column name to text), a list of objects, a status
enumeration member, or a plain string.  None of these is callable. -/
inductive PyObj where
  | recordObj (fields : List (String × String))
  | listObj (xs : List PyObj)
  | memberObj (value : String)
  | strObj (s : String)

/-- Calling a Python object (`f(x)`).  Every object that occurs here — record,
list, enum member, string — raises `TypeError: ... object is not callable`. -/
def pyCall : PyObj → PyObj → Except PyErr PyObj
  | PyObj.recordObj _, _ => Except.error PyErr.typeError
  | PyObj.listObj _, _ => Except.error PyErr.typeError
  | PyObj.memberObj _, _ => Except.error PyErr.typeError
  | PyObj.strObj _, _ => Except.error PyErr.typeError

/-- `list(map(f, xs))`: applies `f` to each element of `xs` in order; the
first exception propagates. -/
def pyListMap (f : PyObj) (xs : List PyObj) : Except PyErr (List PyObj) :=
  xs.mapM (pyCall f)

/-- Modelled from the spec: the `IngestionStatus` enumeration lives in
`core.base`, which is not among the staged files; §3 of the spec gives its
members as pending, success, failure.  Only nonemptiness matters below. -/
def ingestionStatusMembers : List PyObj :=
  [PyObj.memberObj "pending", PyObj.memberObj "success", PyObj.memberObj "failure"]

/-- Modelled from the spec: the `KGExtractionStatus` enumeration (core.base,
not staged); one of the three status tracks of §4.4, each "backed by its own
enumeration of legal values", with pending as schema default. -/
def kgExtractionStatusMembers : List PyObj :=
  [PyObj.memberObj "pending", PyObj.memberObj "success", PyObj.memberObj "failure"]

/-- Modelled from the spec: the `KGEnrichmentStatus` enumeration (core.base,
not staged); the third status track of §4.4. -/
def kgEnrichmentStatusMembers : List PyObj :=
  [PyObj.memberObj "pending", PyObj.memberObj "success", PyObj.memberObj "failure"]

/-- `_get_status_model(status_type)` (document.py 257-276): dispatches the
status type to its enumeration, raising an `R2RException` with status 400 for
an unrecognized type. -/
def _get_status_model (status_type : String) : Except PyErr (List PyObj) :=
  if status_type = "ingestion" then Except.ok ingestionStatusMembers
  else if status_type = "kg_extraction_status" then Except.ok kgExtractionStatusMembers
  else if status_type = "kg_enrichment_status" then Except.ok kgEnrichmentStatusMembers
  else Except.error (PyErr.r2rException 400 ("Invalid status type: " ++ status_type))

/-- `get_workflow_status(id, status_type)` (document.py 278-304): fetches the
status records for the ids, then evaluates
`result = list(map(<fetched records>, out_model))` and returns `result[0]`
for a single id, `result` for a list.  `fetched` is the record list the
`_get_status_from_table` query returns; `single` tells whether `id` was a
single UUID.  `result[0]` on an empty list raises IndexError. -/
def get_workflow_status (status_type : String) (fetched : List PyObj)
    (single : Bool) : Except PyErr PyObj :=
  match _get_status_model status_type with
  | Except.error e => Except.error e
  | Except.ok members =>
      match pyListMap (PyObj.listObj fetched) members with
      | Except.error e => Except.error e
      | Except.ok result =>
          if single then
            match result.head? with
            | Option.none => Except.error PyErr.indexError
            | Option.some v => Except.ok v
          else Except.ok (PyObj.listObj result)

/-! ## get_document_ids_by_status (document.py 207-230 and 328-350)

`_get_ids_from_table` always conjoins `$2 = ANY(collection_ids)` to the WHERE
clause; with `collection_id = None` the SQL comparison `NULL = ANY(...)`
evaluates to NULL (or FALSE on an empty array) and never to TRUE, so no row
satisfies the condition. -/

/-- A row as seen by the status-id query: its document id, the value of the
queried status column, and its collection ids. -/
structure StatusRow where
  document_id : Nat
  status : String
  collection_ids : List Nat
deriving DecidableEq, Repr

/-- SQL `v = ANY(arr)` under three-valued logic with a possibly NULL `v`
(array elements themselves non-null): NULL compared into a non-empty array
is NULL (`Option.none`), into an empty array FALSE. -/
def sqlEqAny (v : Option Nat) (arr : List Nat) : Option Bool :=
  match v with
  | Option.none => if arr.isEmpty then Option.some false else Option.none
  | Option.some c => Option.some (decide (c ∈ arr))

/-- `_get_ids_from_table(status, table, status_type, collection_id)`: a row is
selected when the WHERE condition is TRUE (not NULL, not FALSE). -/
def _get_ids_from_table (table : List StatusRow) (status : List String)
    (collection_id : Option Nat) : List Nat :=
  (table.filter fun r =>
      decide (r.status ∈ status)
        && (sqlEqAny collection_id r.collection_ids == Option.some true)).map
    fun r => r.document_id

/-- `get_document_ids_by_status(status_type, status, collection_id)`
(document.py 328-350): wraps a scalar status into a one-element list and
delegates to `_get_ids_from_table` on the track's table. -/
def get_document_ids_by_status (table : List StatusRow) (status : List String)
    (collection_id : Option Nat) : List Nat :=
  _get_ids_from_table table status collection_id

/-! ## KG candidate ranking (src/py/core/pipes/retrieval/kg_search_pipe.py 58-92)

`filter_responses` parses each candidate response with `json.loads`, collects
the point items whose score is positive, sorts them by score descending and
joins their descriptions with newlines.  Only `json.JSONDecodeError` and
`KeyError` are caught; a `TypeError` (subscripting a non-dict, iterating a
number, comparing a non-number to 0) propagates.  A parsed JSON document is
a `Json` value; a response is the outcome of `json.loads` on it, with
`Option.none` standing for a parse failure. -/

/-- A parsed JSON value.  Numbers are rationals (exact arithmetic; the scores
compared here are decimal literals). -/
inductive Json where
  | null
  | boolJ (b : Bool)
  | numJ (q : ℚ)
  | strJ (s : String)
  | arrJ (xs : List Json)
  | objJ (fields : List (String × Json))

/-- Python subscripting `j[k]` with a string key: a dict yields the stored
value or raises `KeyError`; any other value raises `TypeError`. -/
def pySubscript : Json → String → Except PyErr Json
  | Json.objJ fields, k =>
      match lookupKey fields k with
      | Option.some v => Except.ok v
      | Option.none => Except.error (PyErr.keyError k)
  | _, _ => Except.error PyErr.typeError

/-- Python iteration `for item in j`: a list yields its elements, a dict its
keys, a string its characters; a number, boolean or None raises `TypeError`. -/
def pyIterate : Json → Except PyErr (List Json)
  | Json.arrJ xs => Except.ok xs
  | Json.objJ fields => Except.ok (fields.map fun kv => Json.strJ kv.1)
  | Json.strJ s => Except.ok (s.data.map fun c => Json.strJ (String.singleton c))
  | _ => Except.error PyErr.typeError

/-- Python `v > 0`: numbers compare numerically, booleans as 0/1; any other
value raises `TypeError`. -/
def pyGtZero : Json → Except PyErr Bool
  | Json.numJ q => Except.ok (decide (0 < q))
  | Json.boolJ b => Except.ok b
  | _ => Except.error PyErr.typeError

/-- The inner `try` of `filter_responses` (kg_search_pipe.py 64-70) for one
item: evaluate `item["score"] > 0` and keep the item when true; a `KeyError`
is caught and the item skipped; any other exception propagates. -/
def processItem (item : Json) : Except PyErr (Option Json) :=
  match pySubscript item "score" with
  | Except.error (PyErr.keyError _) => Except.ok Option.none
  | Except.error e => Except.error e
  | Except.ok score =>
      match pyGtZero score with
      | Except.error e => Except.error e
      | Except.ok b => Except.ok (if b then Option.some item else Option.none)

/-- The loop over the items of one parsed response, collecting kept items in
order. -/
def collectItems : List Json → Except PyErr (List Json)
  | [] => Except.ok []
  | item :: rest =>
      match processItem item with
      | Except.error e => Except.error e
      | Except.ok kept =>
          match collectItems rest with
          | Except.error e => Except.error e
          | Except.ok restKept =>
              Except.ok (match kept with
                | Option.some it => it :: restKept
                | Option.none => restKept)

/-- The outer `try` of `filter_responses` (kg_search_pipe.py 61-80) for one
response: a parse failure (`json.JSONDecodeError`) or a missing points key
(`KeyError`) skips the response; a `TypeError` from subscripting a non-dict
or iterating a non-sequence propagates. -/
def processResponse : Option Json → Except PyErr (List Json)
  | Option.none => Except.ok []
  | Option.some parsed =>
      match pySubscript parsed "points" with
      | Except.error (PyErr.keyError _) => Except.ok []
      | Except.error e => Except.error e
      | Except.ok points =>
          match pyIterate points with
          | Except.error e => Except.error e
          | Except.ok items => collectItems items

/-- The loop over all responses, concatenating each response's kept items. -/
def collectResponses : List (Option Json) → Except PyErr (List Json)
  | [] => Except.ok []
  | r :: rest =>
      match processResponse r with
      | Except.error e => Except.error e
      | Except.ok kept =>
          match collectResponses rest with
          | Except.error e => Except.error e
          | Except.ok restKept => Except.ok (kept ++ restKept)

/-- The sort key `lambda x: x["score"]` as a rational.  Every retained item
passed the `item["score"] > 0` guard, so its score is a number (or boolean);
the fallback values are never exercised on retained items. -/
def itemScore : Json → ℚ
  | Json.objJ fields =>
      (match lookupKey fields "score" with
       | Option.some (Json.numJ q) => q
       | Option.some (Json.boolJ b) => if b then 1 else 0
       | _ => 0)
  | _ => 0

/-- `response.get("description", "")` followed by `"\n".join`: a missing
description joins as the empty string; a present non-string description makes
`str.join` raise `TypeError`; an item that is not a dict has no `.get` and
raises `AttributeError`. -/
def getDescription : Json → Except PyErr String
  | Json.objJ fields =>
      (match lookupKey fields "description" with
       | Option.none => Except.ok ""
       | Option.some (Json.strJ s) => Except.ok s
       | Option.some _ => Except.error PyErr.typeError)
  | _ => Except.error PyErr.attributeError

/-- `filter_responses(map_responses)` (kg_search_pipe.py 58-92): collect the
positive-score items of every response, sort them by score descending
(`sorted` with `reverse=True` is stable, as is `mergeSort` with a
greater-or-equal comparison), and join their descriptions with newlines. -/
def filter_responses (map_responses : List (Option Json)) : Except PyErr String :=
  match collectResponses map_responses with
  | Except.error e => Except.error e
  | Except.ok filtered =>
      let sorted := filtered.mergeSort fun a b => decide (itemScore b ≤ itemScore a)
      match sorted.mapM getDescription with
      | Except.error e => Except.error e
      | Except.ok descs => Except.ok (String.intercalate "\n" descs)

/-! ### The ranking behaviour the spec describes (§4.3)

A second definition written from the spec's words, to be compared with the
code: parse each response; skip one that fails to parse or lacks the point
list; skip items without a numeric score; retain items with score > 0; sort
all retained items descending by score; join their descriptions with
newlines. -/

/-- The point items of one response per the spec: none when the response does
not parse or has no points list. -/
def specItems : Option Json → List Json
  | Option.none => []
  | Option.some (Json.objJ fields) =>
      (match lookupKey fields "points" with
       | Option.some (Json.arrJ items) => items
       | _ => [])
  | Option.some _ => []

/-- An item's numeric score per the spec, when it has one. -/
def specScore : Json → Option ℚ
  | Json.objJ fields =>
      (match lookupKey fields "score" with
       | Option.some (Json.numJ q) => Option.some q
       | _ => Option.none)
  | _ => Option.none

/-- The spec retains exactly the items with a numeric score > 0. -/
def specKeep (item : Json) : Bool :=
  match specScore item with
  | Option.some q => decide (0 < q)
  | Option.none => false

/-- An item's description per the spec, the empty string when absent. -/
def specDescription : Json → String
  | Json.objJ fields =>
      (match lookupKey fields "description" with
       | Option.some (Json.strJ s) => s
       | _ => "")
  | _ => ""

/-- The merged text the spec describes. -/
def filter_responses_spec (rs : List (Option Json)) : String :=
  String.intercalate "\n"
    ((((rs.map specItems).flatten.filter specKeep).mergeSort
        fun a b => decide (itemScore b ≤ itemScore a)).map specDescription)

/-- An item on which the code's behaviour and the spec's agree: a JSON object
whose score, when present, is a number, and whose description, when present,
is a string. -/
def goodItem : Json → Bool
  | Json.objJ fields =>
      (match lookupKey fields "score" with
       | Option.none => true
       | Option.some (Json.numJ _) => true
       | Option.some _ => false)
      && (match lookupKey fields "description" with
       | Option.none => true
       | Option.some (Json.strJ _) => true
       | Option.some _ => false)
  | _ => false

/-- A response on which the code's behaviour and the spec's agree: a parse
failure, or a JSON object whose points key is absent or holds a list of good
items. -/
def goodResponse : Option Json → Bool
  | Option.none => true
  | Option.some (Json.objJ fields) =>
      (match lookupKey fields "points" with
       | Option.none => true
       | Option.some (Json.arrJ items) => items.all goodItem
       | Option.some _ => false)
  | Option.some _ => false

/-- The spec's worked example (§8): the `json.loads` outcomes of the three
response strings — the first parses to a points list with one scored item,
the second is not valid JSON, the third parses to a points list whose item
has no score. -/
def exampleResponses : List (Option Json) :=
  [Option.some (Json.objJ [("points",
      Json.arrJ [Json.objJ [("score", Json.numJ (9 / 10)),
                            ("description", Json.strJ "A")]])]),
   Option.none,
   Option.some (Json.objJ [("points",
      Json.arrJ [Json.objJ [("description", Json.strJ "no score")]])])]

/-! ## Theorems -/

/-- One update step never lowers the stored attempt number. -/
lemma upsertStep_attempt_le (s e : DocRow) :
    s.ingestion_attempt_number
      ≤ (upsertDocumentStep (Option.some s) e).ingestion_attempt_number := by
  simp only [upsertDocumentStep, newAttemptNumber]
  split <;> omega

/-- The stored attempt number is monotone across any sequence of upserts. -/
lemma applyUpserts_attempt_mono (entries : List DocRow) (s : DocRow) :
    s.ingestion_attempt_number ≤ (applyUpserts s entries).ingestion_attempt_number := by
  induction entries generalizing s with
  | nil => exact le_refl _
  | cons e es ih =>
      calc s.ingestion_attempt_number
          ≤ (upsertDocumentStep (Option.some s) e).ingestion_attempt_number :=
            upsertStep_attempt_le s e
        _ ≤ _ := ih (upsertDocumentStep (Option.some s) e)

/-- C1: across any sequence of upserts of one document the stored
ingestion_attempt_number never decreases; an upsert that finds an existing
row stores the old number plus one exactly when the stored status is not
success and the incoming status is success, or the incoming attempt number
is strictly greater than the stored one, and stores the old number unchanged
exactly otherwise. -/
theorem upsert_attempt_number_invariant :
    ∀ (db entry : DocRow),
      (((upsertDocumentStep (Option.some db) entry).ingestion_attempt_number
            = db.ingestion_attempt_number + 1)
          ↔ ((db.ingestion_status ≠ "success" ∧ entry.ingestion_status = "success")
              ∨ entry.ingestion_attempt_number > db.ingestion_attempt_number))
      ∧ (((upsertDocumentStep (Option.some db) entry).ingestion_attempt_number
            = db.ingestion_attempt_number)
          ↔ ¬ ((db.ingestion_status ≠ "success" ∧ entry.ingestion_status = "success")
              ∨ entry.ingestion_attempt_number > db.ingestion_attempt_number))
      ∧ ∀ (entries : List DocRow) (s : DocRow),
          s.ingestion_attempt_number
            ≤ (applyUpserts s entries).ingestion_attempt_number := by
  intro db entry
  refine ⟨?_, ?_, fun entries s => applyUpserts_attempt_mono entries s⟩
  · simp only [upsertDocumentStep, newAttemptNumber]
    split
    · rename_i h
      exact ⟨fun _ => h, fun _ => rfl⟩
    · rename_i h
      exact ⟨fun h2 => absurd h2 (by omega), fun h2 => absurd h2 h⟩
  · simp only [upsertDocumentStep, newAttemptNumber]
    split
    · rename_i h
      exact ⟨fun h2 => absurd h2 (by omega), fun h2 => absurd h h2⟩
    · rename_i h
      exact ⟨fun _ => h, fun _ => rfl⟩

/-- C10: `delete_from_documents_overview` with the empty string as version
behaves exactly as with no version: the row for the document id is removed
regardless of its stored version label. -/
theorem delete_empty_version_like_none :
    ∀ (table : List DocRow) (document_id : Nat),
      delete_from_documents_overview table document_id (Option.some "")
          = delete_from_documents_overview table document_id Option.none
      ∧ ∀ r : DocRow,
          r ∈ delete_from_documents_overview table document_id (Option.some "")
            ↔ r ∈ table ∧ r.document_id ≠ document_id := by
  intro table document_id
  constructor
  · rfl
  · intro r
    simp [delete_from_documents_overview, pyTruthyOptStr, List.mem_filter]

/-- C6 counterexample: with outer key present, inner key absent and the
caller-supplied default `0` (a falsy value), `get` returns the empty dict,
not the supplied default. -/
theorem get_falsy_default_counterexample :
    AsyncState.get [("a", [])] "a" "x" (PyVal.intV 0) = Except.ok (PyVal.dictV [])
      ∧ AsyncState.get [("a", [])] "a" "x" (PyVal.intV 0)
          ≠ Except.ok (PyVal.intV 0) := by
  refine ⟨rfl, fun h => ?_⟩
  have h2 := Except.ok.inj h
  exact PyVal.noConfusion h2

/-- C6 (amended): with the outer key present and the inner key absent, `get`
never raises and returns the supplied default when that default is truthy,
and the empty dict when the default is falsy (a falsy default, `None`
included, is replaced by the empty dict by the `default or` fallback). -/
theorem get_present_outer_absent_inner :
    ∀ (st : StateData) (outer_key inner_key : String) (bucket : Bucket) (d : PyVal),
      lookupKey st outer_key = Option.some bucket →
      lookupKey bucket inner_key = Option.none →
      AsyncState.get st outer_key inner_key d
        = Except.ok (if pyTruthy d then d else PyVal.dictV []) := by
  intro st outer_key inner_key bucket d h1 h2
  simp [AsyncState.get, h1, h2]

/-- C6 witness: concrete instances of the amended claim, a truthy and a falsy
default. -/
theorem get_present_outer_absent_inner_witness :
    AsyncState.get [("a", [])] "a" "x" (PyVal.strV "v") = Except.ok (PyVal.strV "v")
      ∧ AsyncState.get [("a", [])] "a" "x" PyVal.noneV = Except.ok (PyVal.dictV []) := by
  have h1 := get_present_outer_absent_inner [("a", [])] "a" "x" [] (PyVal.strV "v") rfl rfl
  have h2 := get_present_outer_absent_inner [("a", [])] "a" "x" [] PyVal.noneV rfl rfl
  exact ⟨by simpa [pyTruthy] using h1, by simpa [pyTruthy] using h2⟩

/-- C7: on an outer key absent from the state, `get` (with any inner key and
default) and `delete` (with or without an inner key) both fail with a
missing-key error — `get` with the state ValueError naming the outer key,
`delete` with the KeyError from subscripting `self.data` — and `delete`
leaves the state unchanged (`get` never mutates). -/
theorem state_absent_outer_not_found :
    ∀ (st : StateData) (outer_key : String),
      lookupKey st outer_key = Option.none →
      (∀ (inner_key : String) (d : PyVal),
          AsyncState.get st outer_key inner_key d
            = Except.error (PyErr.valueErrorKeyMissing outer_key)
          ∧ (PyErr.valueErrorKeyMissing outer_key).isNotFoundClass = true)
      ∧ (∀ inner_key : Option String,
          AsyncState.delete st outer_key inner_key
            = (Except.error (PyErr.keyError outer_key), st)
          ∧ (PyErr.keyError outer_key).isNotFoundClass = true) := by
  intro st outer_key h
  constructor
  · intro inner_key d
    exact ⟨by simp [AsyncState.get, h], rfl⟩
  · intro inner_key
    refine ⟨?_, rfl⟩
    have hk : hasKey st outer_key = false := by simp [hasKey, h]
    simp [AsyncState.delete, hk, h]

/-- C7 witness: the empty state has no outer key `a`; both operations fail
with the missing-key error and the state is unchanged. -/
theorem state_absent_outer_not_found_witness :
    AsyncState.get [] "a" "x" PyVal.noneV
        = Except.error (PyErr.valueErrorKeyMissing "a")
      ∧ AsyncState.delete [] "a" Option.none
        = (Except.error (PyErr.keyError "a"), [])
      ∧ AsyncState.delete [] "a" (Option.some "x")
        = (Except.error (PyErr.keyError "a"), []) := by
  have h := state_absent_outer_not_found [] "a" rfl
  exact ⟨(h.1 "x" PyVal.noneV).1, (h.2 Option.none).1, (h.2 (Option.some "x")).1⟩

/-- C2: for every recognized status type, `get_workflow_status` raises
TypeError whatever the fetched records and whether the id was a scalar or a
list — `list(map(records, out_model))` passes the fetched record list as the
function argument of `map`, and a list is not callable.  The documented
return of the stored status is unreachable. -/
theorem get_workflow_status_always_type_error :
    ∀ (fetched : List PyObj) (single : Bool),
      get_workflow_status "ingestion" fetched single = Except.error PyErr.typeError
      ∧ get_workflow_status "kg_extraction_status" fetched single
          = Except.error PyErr.typeError
      ∧ get_workflow_status "kg_enrichment_status" fetched single
          = Except.error PyErr.typeError := by
  intro fetched single
  exact ⟨rfl, rfl, rfl⟩

/-- C3: `get_document_ids_by_status` with no collection id returns no ids at
all (the clause NULL = ANY(collection_ids) is never TRUE), contradicting the
claimed return of all documents with a matching status; with a collection id
it does restrict to status match plus membership in that collection. -/
theorem get_document_ids_by_status_none_collection :
    (∀ (table : List StatusRow) (status : List String),
        get_document_ids_by_status table status Option.none = [])
      ∧ get_document_ids_by_status
          [⟨1, "pending", [7]⟩, ⟨2, "pending", []⟩] ["pending"] Option.none = []
      ∧ ∀ (table : List StatusRow) (status : List String) (c x : Nat),
          x ∈ get_document_ids_by_status table status (Option.some c)
            ↔ ∃ r ∈ table, r.document_id = x ∧ r.status ∈ status
                ∧ c ∈ r.collection_ids := by
  refine ⟨?_, ?_, ?_⟩
  · intro table status
    simp only [get_document_ids_by_status, _get_ids_from_table, sqlEqAny]
    rw [List.filter_eq_nil_iff.mpr, List.map_nil]
    intro r _
    by_cases h : r.collection_ids.isEmpty <;> simp [h]
  · rfl
  · intro table status c x
    simp only [get_document_ids_by_status, _get_ids_from_table, sqlEqAny,
      List.mem_map, List.mem_filter]
    constructor
    · rintro ⟨r, ⟨hr, hcond⟩, rfl⟩
      simp only [Bool.and_eq_true, decide_eq_true_eq, beq_iff_eq,
        Option.some.injEq] at hcond
      exact ⟨r, hr, rfl, hcond.1, hcond.2⟩
    · rintro ⟨r, hr, rfl, hs, hc⟩
      refine ⟨r, ⟨hr, ?_⟩, rfl⟩
      simp [hs, hc]

/-! ### Retry schedule lemmas (C5) -/

/-- The retry loop only compares `retries < conflicts`; two conflict counts
at least `fuel + retries` are indistinguishable within the remaining fuel. -/
lemma retryLoopAux_congr :
    ∀ (fuel retries c1 c2 : Nat), fuel + retries ≤ c1 → fuel + retries ≤ c2 →
      retryLoopAux fuel c1 retries = retryLoopAux fuel c2 retries := by
  intro fuel
  induction fuel with
  | zero => intro retries c1 c2 _ _; rfl
  | succ n ih =>
      intro retries c1 c2 h1 h2
      have hr1 : retries < c1 := by omega
      have hr2 : retries < c2 := by omega
      simp only [retryLoopAux, if_pos hr1, if_pos hr2]
      by_cases hmax : retries + 1 = max_retries
      · simp [hmax]
      · simp only [if_neg hmax]
        rw [ih (retries + 1) c1 c2 (by omega) (by omega)]

/-- Twenty or more consecutive conflicts exhaust the budget identically. -/
lemma upsertDocRetry_high (conflicts : Nat) (h : 20 ≤ conflicts) :
    upsertDocRetry conflicts = upsertDocRetry 20 := by
  unfold upsertDocRetry
  exact retryLoopAux_congr max_retries 0 conflicts 20 (by simp [max_retries]; omega)
    (by simp [max_retries])

/-- Unfolding of the batch loop at a cons cell. -/
lemma upsert_documents_overview_cons (d conflicts : Nat) (rest : List (Nat × Nat)) :
    upsert_documents_overview ((d, conflicts) :: rest)
      = if (upsertDocRetry conflicts).2.2 then
          ([], (upsertDocRetry conflicts).2.1, Option.some d)
        else
          (d :: (upsert_documents_overview rest).1,
           (upsertDocRetry conflicts).2.1 ++ (upsert_documents_overview rest).2.1,
           (upsert_documents_overview rest).2.2) := by
  simp only [upsert_documents_overview]
  rcases h : upsertDocRetry conflicts with ⟨a, w, r⟩
  rcases h2 : upsert_documents_overview rest with ⟨done, laterWaits, raisedAt⟩
  cases r <;> simp

/-- The conflict is re-raised exactly when all 20 attempts conflict. -/
lemma upsertDocRetry_raised_iff (conflicts : Nat) :
    ((upsertDocRetry conflicts).2.2 = true ↔ 20 ≤ conflicts) := by
  by_cases h : conflicts < 20
  · interval_cases conflicts <;> simp [upsertDocRetry, retryLoopAux, max_retries]
  · rw [upsertDocRetry_high conflicts (by omega)]
    have hval : (upsertDocRetry 20).2.2 = true := by decide
    simp [hval]
    omega

/-- C5 (amended): the waits of a document's retry loop start at 200 ms and
double each attempt (the sleep computes 0.1 * 2^retries seconds with retries
already incremented); the conflict is re-raised exactly when all 20 attempts
(the initial one plus 19 retries) conflict; and when a document's budget is
exhausted the raise propagates out of the batch loop, so the documents
before it are upserted and the ones after it are not processed. -/
theorem upsert_retry_schedule :
    ∀ (conflicts : Nat),
      (upsertDocRetry conflicts).2.1
          = (List.range (min conflicts 19)).map (fun k => 200 * 2 ^ k)
      ∧ ((upsertDocRetry conflicts).2.2 = true ↔ 20 ≤ conflicts)
      ∧ (upsertDocRetry conflicts).1 = min (conflicts + 1) 20
      ∧ ∀ (pre post : List (Nat × Nat)) (d : Nat),
          (∀ p ∈ pre, p.2 < 20) → 20 ≤ conflicts →
          (upsert_documents_overview (pre ++ (d, conflicts) :: post)).1
              = pre.map Prod.fst
          ∧ (upsert_documents_overview (pre ++ (d, conflicts) :: post)).2.2
              = Option.some d := by
  intro conflicts
  have hwaits : (upsertDocRetry conflicts).2.1
      = (List.range (min conflicts 19)).map (fun k => 200 * 2 ^ k) := by
    by_cases h : conflicts < 20
    · interval_cases conflicts <;> decide
    · rw [upsertDocRetry_high conflicts (by omega),
        Nat.min_eq_right (by omega : 19 ≤ conflicts)]
      decide
  have hattempts : (upsertDocRetry conflicts).1 = min (conflicts + 1) 20 := by
    by_cases h : conflicts < 20
    · interval_cases conflicts <;> decide
    · rw [upsertDocRetry_high conflicts (by omega),
        Nat.min_eq_right (by omega : 20 ≤ conflicts + 1)]
      decide
  refine ⟨hwaits, upsertDocRetry_raised_iff conflicts, hattempts, ?_⟩
  intro pre post d hpre hconf
  induction pre with
  | nil =>
      have hraised : (upsertDocRetry conflicts).2.2 = true :=
        (upsertDocRetry_raised_iff conflicts).mpr hconf
      rw [List.nil_append, upsert_documents_overview_cons, if_pos hraised]
      exact ⟨rfl, rfl⟩
  | cons p ps ih =>
      have hp : p.2 < 20 := hpre p (List.mem_cons_self p ps)
      have hnot : ¬ (upsertDocRetry p.2).2.2 = true := by
        intro hval
        exact absurd ((upsertDocRetry_raised_iff p.2).mp hval) (by omega)
      have ihres := ih (fun q hq => hpre q (List.mem_cons_of_mem p hq))
      rw [List.cons_append,
        show (p : Nat × Nat) = (p.1, p.2) from rfl,
        upsert_documents_overview_cons, if_neg hnot]
      exact ⟨by simp [ihres.1], ihres.2⟩

/-- C5 witness: a batch of two documents, the first conflicting on all
attempts, the second conflict-free: the first wait is 200 ms, the conflict is
re-raised for the first document, and the second document is not processed. -/
theorem upsert_retry_schedule_witness :
    (upsertDocRetry 20).2.1.head? = Option.some 200
      ∧ ((upsertDocRetry 20).2.2 = true ↔ 20 ≤ 20)
      ∧ (upsert_documents_overview [(1, 20), (2, 0)]).1 = []
      ∧ (upsert_documents_overview [(1, 20), (2, 0)]).2.2 = Option.some 1 := by
  have h := upsert_retry_schedule 20
  have hb := h.2.2.2 [] [(2, 0)] 1 (by intro p hp; cases hp) (le_refl 20)
  exact ⟨by rw [h.1]; rfl, h.2.1, hb.1, hb.2⟩

/-- C5 counterexample: the first wait of the retry loop is 200 ms, not the
claimed 100 ms, and after the first document's budget is exhausted the second
document of the batch is not processed, contrary to the claim. -/
theorem upsert_retry_first_wait_counterexample :
    (upsertDocRetry 20).2.1.head? = Option.some 200
      ∧ (upsertDocRetry 20).2.1.head? ≠ Option.some 100
      ∧ (upsert_documents_overview [(1, 20), (2, 0)]).1 = [] := by
  refine ⟨rfl, ?_, rfl⟩
  decide

/-- A concrete document row used for closed instances. -/
def sampleRow : DocRow :=
  { document_id := 1, collection_ids := [], user_id := 1, doc_type := "txt",
    metadata := "", title := "t", version := "v1", size_in_bytes := 0,
    ingestion_status := "pending", kg_extraction_status := "pending",
    created_at := 0, updated_at := 0, ingestion_attempt_number := 0 }

/-- C9 counterexample: a one-row table read with offset 1 and limit -1 has an
empty page and the code reports total_entries 0, though one row matches the
(empty) filters. -/
theorem get_documents_overview_total_counterexample :
    (get_documents_overview [sampleRow] [] [] [] 1 (-1)).2 = 0
      ∧ ([sampleRow].filter (matchesFilters [] [] [])).length = 1 := by
  refine ⟨?_, rfl⟩
  have hm : [sampleRow].filter (matchesFilters [] [] []) = [sampleRow] := rfl
  simp [get_documents_overview, hm]

/-- C9 (amended): the returned page is ordered newest-created-first and holds
only rows of the table matching the filters; with limit -1 and offset 0 it is
exactly the matching rows; and total_entries equals the number of matching
rows whenever the page is non-empty, but is 0 when the page is empty (an
offset or limit that skips every row understates the true count). -/
theorem get_documents_overview_pagination :
    ∀ (table : List DocRow) (fdoc fuser fcoll : List Nat) (offset : Nat) (limit : Int),
      ((get_documents_overview table fdoc fuser fcoll offset limit).1).Pairwise
          (fun a b => b.created_at ≤ a.created_at)
      ∧ (∀ r ∈ (get_documents_overview table fdoc fuser fcoll offset limit).1,
            r ∈ table ∧ matchesFilters fdoc fuser fcoll r = true)
      ∧ (limit = -1 → offset = 0 →
          (get_documents_overview table fdoc fuser fcoll offset limit).1.Perm
            (table.filter (matchesFilters fdoc fuser fcoll)))
      ∧ (get_documents_overview table fdoc fuser fcoll offset limit).2
          = (if (get_documents_overview table fdoc fuser fcoll offset limit).1.isEmpty
             then 0 else (table.filter (matchesFilters fdoc fuser fcoll)).length) := by
  intro table fdoc fuser fcoll offset limit
  have htrans : ∀ (a b c : DocRow),
      decide (b.created_at ≤ a.created_at) → decide (c.created_at ≤ b.created_at) →
      decide (c.created_at ≤ a.created_at) := by
    intro a b c h1 h2
    simp only [decide_eq_true_eq] at *
    omega
  have htotal : ∀ (a b : DocRow),
      decide (b.created_at ≤ a.created_at) || decide (a.created_at ≤ b.created_at) := by
    intro a b
    simp only [Bool.or_eq_true, decide_eq_true_eq]
    exact Int.le_total _ _
  have hsorted :
      ((table.filter (matchesFilters fdoc fuser fcoll)).mergeSort
          fun a b => decide (b.created_at ≤ a.created_at)).Pairwise
        (fun a b => b.created_at ≤ a.created_at) := by
    have := List.sorted_mergeSort htrans htotal
      (table.filter (matchesFilters fdoc fuser fcoll))
    exact this.imp (fun h => of_decide_eq_true h)
  have hpagesub : (get_documents_overview table fdoc fuser fcoll offset limit).1.Sublist
      ((table.filter (matchesFilters fdoc fuser fcoll)).mergeSort
          fun a b => decide (b.created_at ≤ a.created_at)) := by
    by_cases hl : limit = -1
    · simp only [get_documents_overview, if_pos hl]
      exact List.drop_sublist _ _
    · simp only [get_documents_overview, if_neg hl]
      exact (List.take_sublist _ _).trans (List.drop_sublist _ _)
  refine ⟨hsorted.sublist hpagesub, ?_, ?_, ?_⟩
  · intro r hr
    have hr2 := hpagesub.subset hr
    rw [List.mem_mergeSort] at hr2
    exact ⟨(List.mem_filter.mp hr2).1, (List.mem_filter.mp hr2).2⟩
  · intro hl hoff
    subst hl hoff
    simp only [get_documents_overview, if_pos rfl, List.drop_zero]
    exact List.mergeSort_perm _ _
  · rfl

/-! ### Ranking utility lemmas (C4) -/

/-- On a good item the inner try keeps the item exactly when its score is a
number greater than zero, and never raises. -/
lemma processItem_good (item : Json) (h : goodItem item = true) :
    processItem item
      = Except.ok (if specKeep item then Option.some item else Option.none) := by
  cases item with
  | objJ fields =>
      cases hsc : lookupKey fields "score" with
      | none => simp [processItem, pySubscript, hsc, specKeep, specScore]
      | some v =>
          cases v with
          | numJ q => simp [processItem, pySubscript, hsc, pyGtZero, specKeep, specScore]
          | null => simp [goodItem, hsc] at h
          | boolJ b => simp [goodItem, hsc] at h
          | strJ s => simp [goodItem, hsc] at h
          | arrJ xs => simp [goodItem, hsc] at h
          | objJ gs => simp [goodItem, hsc] at h
  | null => simp [goodItem] at h
  | boolJ b => simp [goodItem] at h
  | numJ q => simp [goodItem] at h
  | strJ s => simp [goodItem] at h
  | arrJ xs => simp [goodItem] at h

/-- The item loop keeps exactly the items the spec retains, in order. -/
lemma collectItems_good (items : List Json) (h : ∀ it ∈ items, goodItem it = true) :
    collectItems items = Except.ok (items.filter specKeep) := by
  induction items with
  | nil => rfl
  | cons item rest ih =>
      have h1 : goodItem item = true := h item (List.mem_cons_self item rest)
      have h2 := ih fun it hit => h it (List.mem_cons_of_mem item hit)
      rw [collectItems, processItem_good item h1, h2]
      by_cases hk : specKeep item
      · simp [hk, List.filter_cons_of_pos]
      · simp [hk, List.filter_cons_of_neg]

/-- On a good response the outer try returns the spec's retained items. -/
lemma processResponse_good (r : Option Json) (h : goodResponse r = true) :
    processResponse r = Except.ok ((specItems r).filter specKeep) := by
  cases r with
  | none => rfl
  | some parsed =>
      cases parsed with
      | objJ fields =>
          cases hp : lookupKey fields "points" with
          | none => simp [processResponse, pySubscript, hp, specItems]
          | some points =>
              cases points with
              | arrJ items =>
                  have hall : ∀ it ∈ items, goodItem it = true := by
                    have := h
                    simp only [goodResponse, hp, List.all_eq_true] at this
                    exact this
                  simp [processResponse, pySubscript, hp, pyIterate, specItems,
                    collectItems_good items hall]
              | null => simp [goodResponse, hp] at h
              | boolJ b => simp [goodResponse, hp] at h
              | numJ q => simp [goodResponse, hp] at h
              | strJ s => simp [goodResponse, hp] at h
              | objJ gs => simp [goodResponse, hp] at h
      | null => simp [goodResponse] at h
      | boolJ b => simp [goodResponse] at h
      | numJ q => simp [goodResponse] at h
      | strJ s => simp [goodResponse] at h
      | arrJ xs => simp [goodResponse] at h

/-- The response loop concatenates each response's retained items. -/
lemma collectResponses_good (rs : List (Option Json))
    (h : ∀ r ∈ rs, goodResponse r = true) :
    collectResponses rs = Except.ok ((rs.map specItems).flatten.filter specKeep) := by
  induction rs with
  | nil => rfl
  | cons r rest ih =>
      have h1 := processResponse_good r (h r (List.mem_cons_self r rest))
      have h2 := ih fun x hx => h x (List.mem_cons_of_mem r hx)
      rw [collectResponses, h1, h2]
      simp [List.filter_append]

/-- Every item the spec retains from a good response is itself good. -/
lemma specItems_good (r : Option Json) (h : goodResponse r = true) :
    ∀ it ∈ specItems r, goodItem it = true := by
  cases r with
  | none => intro it hit; cases hit
  | some parsed =>
      cases parsed with
      | objJ fields =>
          cases hp : lookupKey fields "points" with
          | none => intro it hit; simp [specItems, hp] at hit
          | some points =>
              cases points with
              | arrJ items =>
                  intro it hit
                  simp only [specItems, hp] at hit
                  simp only [goodResponse, hp, List.all_eq_true] at h
                  exact h it hit
              | null => simp [goodResponse, hp] at h
              | boolJ b => simp [goodResponse, hp] at h
              | numJ q => simp [goodResponse, hp] at h
              | strJ s => simp [goodResponse, hp] at h
              | objJ gs => simp [goodResponse, hp] at h
      | null => simp [goodResponse] at h
      | boolJ b => simp [goodResponse] at h
      | numJ q => simp [goodResponse] at h
      | strJ s => simp [goodResponse] at h
      | arrJ xs => simp [goodResponse] at h

/-- On a good item the description join never raises and yields the spec's
description. -/
lemma getDescription_good (item : Json) (h : goodItem item = true) :
    getDescription item = Except.ok (specDescription item) := by
  cases item with
  | objJ fields =>
      cases hd : lookupKey fields "description" with
      | none => simp [getDescription, hd, specDescription]
      | some v =>
          cases v with
          | strJ s => simp [getDescription, hd, specDescription]
          | null => simp [goodItem, hd] at h
          | boolJ b => simp [goodItem, hd] at h
          | numJ q => simp [goodItem, hd] at h
          | arrJ xs => simp [goodItem, hd] at h
          | objJ gs => simp [goodItem, hd] at h
  | null => simp [goodItem] at h
  | boolJ b => simp [goodItem] at h
  | numJ q => simp [goodItem] at h
  | strJ s => simp [goodItem] at h
  | arrJ xs => simp [goodItem] at h

/-- Joining the descriptions of a list of good items never raises. -/
lemma mapM_getDescription_good (l : List Json) (h : ∀ it ∈ l, goodItem it = true) :
    l.mapM getDescription = Except.ok (l.map specDescription) := by
  induction l with
  | nil => rfl
  | cons item rest ih =>
      have h1 := getDescription_good item (h item (List.mem_cons_self item rest))
      have h2 := ih fun it hit => h it (List.mem_cons_of_mem item hit)
      rw [List.mapM_cons, h1, h2]
      rfl

/-- C4 (amended): on responses whose parsed form is an object whose points
list (when present) holds items with numeric scores (when present) and string
descriptions (when present), `filter_responses` returns normally and computes
exactly the spec's merge: unparsable responses and responses without a points
list are skipped, items without a score are skipped, items with score > 0 are
retained, sorted descending by score, and their descriptions joined with
newlines.  (As stated the claim is false: a response that parses to a
non-object, or an item whose score is not a number, raises TypeError.) -/
theorem filter_responses_good_merge :
    ∀ (rs : List (Option Json)), (∀ r ∈ rs, goodResponse r = true) →
      filter_responses rs = Except.ok (filter_responses_spec rs) := by
  intro rs h
  have hc := collectResponses_good rs h
  have hgood : ∀ it ∈ (rs.map specItems).flatten.filter specKeep,
      goodItem it = true := by
    intro it hit
    obtain ⟨l, hl, hitl⟩ := List.mem_flatten.mp (List.mem_filter.mp hit).1
    obtain ⟨r, hr, rfl⟩ := List.mem_map.mp hl
    exact specItems_good r (h r hr) it hitl
  have hsortedgood : ∀ it ∈ ((rs.map specItems).flatten.filter specKeep).mergeSort
      (fun a b => decide (itemScore b ≤ itemScore a)), goodItem it = true :=
    fun it hit => hgood it (List.mem_mergeSort.mp hit)
  rw [filter_responses, hc]
  simp only [mapM_getDescription_good _ hsortedgood]
  rfl

/-- C4 witness: the spec's worked example — one well-scored item, one
unparsable response, one scoreless item — merges to exactly the string A. -/
theorem filter_responses_good_merge_witness :
    filter_responses exampleResponses = Except.ok "A" := by
  have h := filter_responses_good_merge exampleResponses (by decide)
  rw [h, filter_responses_spec]
  simp [exampleResponses, specItems, lookupKey, specKeep, specScore,
    specDescription]
  decide

/-- C4 counterexample: on the single response 123 (valid JSON that parses to
a number), subscripting the parsed value with the points key raises TypeError
— only JSONDecodeError and KeyError are caught — so `filter_responses`
raises rather than returning normally. -/
theorem filter_responses_counterexample :
    filter_responses [Option.some (Json.numJ 123)]
      = Except.error PyErr.typeError := by
  rfl

end R2R
